import Mathlib

/-!
Verification of the dialogue-orchestration core of the LawChatBot repository
(`dialogue_service.py`), against its natural-language specification.

The development has two layers.

* A byte-level model of the crypto-at-rest store (`encrypt_data` /
  `decrypt_data`, source lines 53-68): PKCS7 padding and CBC chaining are
  implemented over `List Nat` bytes, parameterised by the AES block
  transformation `E`/`D` (the AES primitive itself is the external
  PyCryptodome library, so it enters the model as an abstract block cipher
  with an inverse).  Base64/JSON serialisation of the `{iv, ciphertext}`
  bundle is a library bijection and the bundle is modelled as a structure.

* A service-level model of the four HTTP handlers `process_message`,
  `log_message`, `get_full_answer` and `get_dialog_history` over an explicit
  store of `Turn` rows (the `dialogs` table).  String-level encryption is a
  parameter `enc : String → String` / `dec : String → Option String`
  (UTF-8 + base64 + JSON framing of the byte-level cipher is external
  serialisation); `dec s = none` models a raised decryption exception.
  External calls (the authorization oracle's boolean, the generated answer,
  the generated UUID, NOW()) are inputs of the modelled functions, and the
  model of the store is the list of rows in `sent_at`-ascending insertion
  order, matching `sent_at TIMESTAMPTZ DEFAULT NOW()`, so that
  `ORDER BY sent_at DESC` is list reversal.
-/

/-! ### Byte-level crypto model (source lines 53-68) -/

/-- Byte-wise xor of two byte lists, truncating to the shorter one (the CBC
chaining operation). -/
def xorBytes (a b : List Nat) : List Nat := List.zipWith Nat.xor a b

/-- PKCS7 padding to the AES block size 16: append n copies of n, where
n = 16 - len mod 16 (a full block of 16s when the length is already a
multiple of 16). -/
def pad16 (l : List Nat) : List Nat :=
  l ++ List.replicate (16 - l.length % 16) (16 - l.length % 16)

/-- PKCS7 unpadding at block size 16, `none` on any padding error (the model
of the `ValueError` raised by `Crypto.Util.Padding.unpad`): the declared
padding length is the last byte, it must lie in 1..16, fit in the data, and
every one of the last that-many bytes must equal it.  The empty list has
declared padding length 0 and is rejected. -/
def unpad16 (l : List Nat) : Option (List Nat) :=
  if l.length % 16 ≠ 0 then none
  else if l.getLastD 0 < 1 ∨ 16 < l.getLastD 0 ∨ l.length < l.getLastD 0 then none
  else if l.drop (l.length - l.getLastD 0) = List.replicate (l.getLastD 0) (l.getLastD 0)
    then some (l.take (l.length - l.getLastD 0))
  else none

/-- Split a byte list into consecutive 16-byte blocks (the block iteration
of the CBC mode). -/
def chunks16 (l : List Nat) : List (List Nat) :=
  if h : l = [] then []
  else l.take 16 :: chunks16 (l.drop 16)
termination_by l.length
decreasing_by
  simp only [List.length_drop]
  have : 0 < l.length := List.length_pos.mpr h
  omega

/-- CBC encryption of a block sequence: each plaintext block is xored with
the previous ciphertext block (initially the IV) and passed through the
block transformation `E`. -/
def cbcEncryptBlocks (E : List Nat → List Nat) (prev : List Nat) :
    List (List Nat) → List (List Nat)
  | [] => []
  | b :: bs => E (xorBytes b prev) :: cbcEncryptBlocks E (E (xorBytes b prev)) bs

/-- CBC decryption of a block sequence: each ciphertext block is passed
through the inverse block transformation `D` and xored with the previous
ciphertext block (initially the IV). -/
def cbcDecryptBlocks (D : List Nat → List Nat) (prev : List Nat) :
    List (List Nat) → List (List Nat)
  | [] => []
  | c :: cs => xorBytes (D c) prev :: cbcDecryptBlocks D c cs

/-- The `{iv, ciphertext}` bundle produced by `encrypt_data` (the JSON/base64
framing of source lines 57-59 is external serialisation of this record). -/
structure EncBundle where
  iv : List Nat
  ciphertext : List Nat
deriving DecidableEq, Repr

/-- Model of `encrypt_data` (source lines 53-59): pad the data with PKCS7,
CBC-encrypt it under the block transformation `E` with the fresh random
`iv` supplied by the caller (`AES.new` draws a fresh IV per call; the model
takes it as the explicit randomness input), and bundle `{iv, ciphertext}`. -/
def encrypt_data (E : List Nat → List Nat) (iv : List Nat) (data : List Nat) : EncBundle :=
  ⟨iv, (cbcEncryptBlocks E iv (chunks16 (pad16 data))).flatten⟩

/-- Model of `decrypt_data` (source lines 61-68): CBC-decrypt the bundled
ciphertext under the bundled IV and strip the PKCS7 padding; `none` models
the exception raised on malformed padding. -/
def decrypt_data (D : List Nat → List Nat) (b : EncBundle) : Option (List Nat) :=
  unpad16 (cbcDecryptBlocks D b.iv (chunks16 b.ciphertext)).flatten

/-! ### Service-level model (`dialogue_service.py` handlers) -/

/-- One row of the `dialogs` table (source lines 85-97).  `sent_at` and
`read_at` are abstract clock values; the store is kept in `sent_at`-ascending
insertion order. -/
structure Turn where
  message_id : String
  user_id : Int
  chat_id : Int
  message_text : Option String
  is_bot_message : Bool
  sent_at : Nat
  read_at : Option Nat
  full_answer : Option String
deriving DecidableEq, Repr

/-- One entry of the context window handed to the ML service (source lines
198-207); `content` is `none` when the stored `message_text` is NULL. -/
structure CtxEntry where
  role : String
  content : Option String
deriving DecidableEq, Repr

/-- Model of the context assembly of `process_message` (source lines
189-207): the rows for the `(user_id, chat_id)` pair ordered by `sent_at`
descending limited to 10, reversed to chronological order, mapped to
role/content pairs with the stored `message_text` taken verbatim, then the
incoming message appended as the final `user` entry. -/
def buildContext (st : List Turn) (uid cid : Int) (new_text : String) : List CtxEntry :=
  (((((st.filter (fun t => t.user_id = uid ∧ t.chat_id = cid)).reverse).take 10).reverse).map
    (fun t => ⟨if t.is_bot_message then "assistant" else "user", t.message_text⟩))
    ++ [⟨"user", some new_text⟩]

/-- The truncation bound `MAX_TRUNCATED_LENGTH` (source line 48). -/
def MAX_TRUNCATED_LENGTH : Nat := 100

/-- Model of the truncation of `process_message` (source lines 233-235):
the first 100 characters, with "..." appended when the answer is longer. -/
def truncateAnswer (a : String) : String :=
  if a.length > MAX_TRUNCATED_LENGTH then a.take MAX_TRUNCATED_LENGTH ++ "..."
  else a.take MAX_TRUNCATED_LENGTH

/-- The response record of the `/process` handler. -/
structure ProcessResponse where
  full_answer : Option String
  truncated_answer : Option String
  message_id : String
deriving DecidableEq, Repr

/-- Model of the `/process` handler `process_message` (source lines
181-243).  Inputs supplied by the environment: the freshly generated answer
`answer` (from `get_ml_response`), the oracle's boolean `authorized` (from
`check_authorization`), the generated UUID `mid` and the clock `now`.
The handler inserts one row — `message_text` stored verbatim, `full_answer`
stored encrypted, `is_bot_message` left to its FALSE default — and returns
either the full or the truncated answer. -/
def process_message (enc : String → String) (st : List Turn)
    (uid cid : Int) (text answer : String) (authorized : Bool)
    (mid : String) (now : Nat) : ProcessResponse × List Turn :=
  let row : Turn :=
    { message_id := mid, user_id := uid, chat_id := cid,
      message_text := some text, is_bot_message := false,
      sent_at := now, read_at := none, full_answer := some (enc answer) }
  let st' := st ++ [row]
  if authorized then
    (⟨some answer, none, mid⟩, st')
  else
    (⟨none, some (truncateAnswer answer), mid⟩, st')

/-- Model of the `/log_message` handler (source lines 245-268): the message
text is encrypted before insertion when non-empty (NULL is stored for the
empty string), and `full_answer` is never set. -/
def log_message (enc : String → String) (st : List Turn)
    (uid cid : Int) (text : String) (is_bot : Bool)
    (mid : String) (now : Nat) : List Turn :=
  let encrypted_text : Option String := if text = "" then none else some (enc text)
  st ++ [{ message_id := mid, user_id := uid, chat_id := cid,
           message_text := encrypted_text, is_bot_message := is_bot,
           sent_at := now, read_at := none, full_answer := none }]

/-- The outcome of the `/full_answer` handler: the explicit denial, the
"Answer not found" result, the decrypted plaintext, or an uncaught
decryption exception (`decrypt_data` is not wrapped in try/except there). -/
inductive FAResult where
  | notAuthorized : FAResult
  | notFound : FAResult
  | fullAnswer : String → FAResult
  | decryptError : FAResult
deriving DecidableEq, Repr

/-- The full observable effect of one `/full_answer` request: its result,
the store it leaves behind, and how many storage reads and decryptions it
performed. -/
structure FAOutcome where
  result : FAResult
  store : List Turn
  storageReads : Nat
  decrypts : Nat
deriving DecidableEq, Repr

/-- The SELECT of the `/full_answer` handler (source lines 281-285): the
stored `full_answer` of the row matching both `message_id` and `user_id`. -/
def fetchStoredAnswer (st : List Turn) (uid : Int) (mid : String) : Option String :=
  (st.find? (fun t => t.message_id = mid ∧ t.user_id = uid)).bind (fun t => t.full_answer)

/-- The UPDATE of the `/full_answer` handler (source lines 294-298): stamp
`read_at` on every row with the given `message_id`. -/
def stampReadAt (st : List Turn) (mid : String) (now : Nat) : List Turn :=
  st.map (fun t => if t.message_id = mid then { t with read_at := some now } else t)

/-- Model of the `/full_answer` handler `get_full_answer` (source lines
270-302).  The oracle is consulted first; on denial the handler returns
before opening a connection (no read, no decrypt, store untouched).
Otherwise the stored `full_answer` is fetched scoped by both `message_id`
and `user_id` (Python truthiness: NULL and the empty string both give
"Answer not found"), decrypted without an exception handler, and on success
`read_at` is stamped for the `message_id`. -/
def get_full_answer (dec : String → Option String) (st : List Turn)
    (uid : Int) (mid : String) (authorized : Bool) (now : Nat) : FAOutcome :=
  if ¬ authorized then
    ⟨.notAuthorized, st, 0, 0⟩
  else
    match fetchStoredAnswer st uid mid with
    | none => ⟨.notFound, st, 1, 0⟩
    | some ct =>
      if ct = "" then ⟨.notFound, st, 1, 0⟩
      else
        match dec ct with
        | none => ⟨.decryptError, st, 1, 1⟩
        | some pt => ⟨.fullAnswer pt, stampReadAt st mid now, 1, 1⟩

/-- The redacted placeholder returned by `/history` when a stored field does
not decrypt (source lines 336 and 344). -/
def decryptPlaceholder : String := "[Ошибка расшифровки]"

/-- One item of the `/history` response; an `Option` field is `none` when
the handler leaves the key out of the item. -/
structure HistoryItem where
  message_id : String
  is_bot_message : Bool
  sent_at : Nat
  message_text : Option String
  full_answer : Option String
deriving DecidableEq, Repr

/-- The decryption attempt of the `/history` handler: the plaintext on
success, the redacted placeholder when `decrypt_data` raises (the
try/except of source lines 332-336 and 340-344). -/
def decryptOrPlaceholder (dec : String → Option String) (s : String) : String :=
  match dec s with
  | some pt => pt
  | none => decryptPlaceholder

/-- The `message_text` field of one `/history` item (source lines 330-336):
present only when the stored field is truthy, decrypted with the
placeholder fallback. -/
def textFieldOf (dec : String → Option String) (s : Option String) : Option String :=
  match s with
  | none => none
  | some str => if str = "" then none else some (decryptOrPlaceholder dec str)

/-- The `full_answer` field of one `/history` item (source lines 338-344):
present only for an authorized caller on a bot row with a truthy stored
field, decrypted with the placeholder fallback. -/
def answerFieldOf (dec : String → Option String) (authorized isBot : Bool)
    (s : Option String) : Option String :=
  match s with
  | none => none
  | some str =>
    if authorized ∧ str ≠ "" ∧ isBot then some (decryptOrPlaceholder dec str) else none

/-- The loop body of the `/history` handler (source lines 323-346): one
response item for one row. -/
def historyItemOf (dec : String → Option String) (authorized : Bool) (t : Turn) :
    HistoryItem :=
  { message_id := t.message_id
    is_bot_message := t.is_bot_message
    sent_at := t.sent_at
    message_text := textFieldOf dec t.message_text
    full_answer := answerFieldOf dec authorized t.is_bot_message t.full_answer }

/-- Model of the `/history` handler `get_dialog_history` (source lines
304-350): the user's rows ordered by `sent_at` descending limited to
`limit`, each mapped through `historyItemOf`.  The handler performs no
write: the store is left as it is. -/
def get_dialog_history (dec : String → Option String) (st : List Turn)
    (uid : Int) (limit : Nat) (authorized : Bool) : List HistoryItem :=
  (((st.filter (fun t => t.user_id = uid)).reverse).take limit).map
    (historyItemOf dec authorized)

/-! ### Oracle adapter model (source lines 127-162) -/

/-- The transport-level outcome of the HTTP POST made by `call_service`:
a 200 response carrying a JSON body, a non-200 status with an error text,
or a raised exception (service unreachable). -/
inductive Transport where
  | status200 : Option Bool → Transport
  | statusOther : Nat → String → Transport
  | failure : String → Transport
deriving DecidableEq, Repr

/-- The dictionary returned by `call_service` as far as `check_authorization`
reads it: either a payload whose optional `authorized` key is recorded, or
an `{"error": ...}` dictionary. -/
inductive CallResult where
  | payload : Option Bool → CallResult
  | errorResult : String → CallResult
deriving DecidableEq, Repr

/-- Model of `call_service` (source lines 127-140): a 200 response is
returned as its JSON payload, a non-200 status or a raised exception
becomes an `{"error": ...}` dictionary. -/
def call_service : Transport → CallResult
  | .status200 auth => .payload auth
  | .statusOther _ text => .errorResult text
  | .failure msg => .errorResult msg

/-- Model of `check_authorization` (source lines 159-162):
`result.get("authorized", False)` — `False` whenever the key is absent,
which covers every error dictionary. -/
def check_authorization (r : CallResult) : Bool :=
  match r with
  | .payload (some b) => b
  | .payload none => false
  | .errorResult _ => false

/-- A transport outcome on which the oracle call failed: the service was
unreachable, the status was not 200, or the 200 body lacked the
`authorized` key (an error payload). -/
def oracleCallFailed : Transport → Bool
  | .status200 (some _) => false
  | .status200 none => true
  | .statusOther _ _ => true
  | .failure _ => true

/-! ### Claim-side definitions (spec wording, for the refutations) -/

/-- Modelled from the spec wording of the Disclosure Policy: the truncated
answer is `firstKChars(A, K) + "…"` when `len(A) > K`, else `A`, with the
single-character ellipsis marker. -/
def claimedTruncated (a : String) : String :=
  if a.length > MAX_TRUNCATED_LENGTH then a.take MAX_TRUNCATED_LENGTH ++ "…" else a

/-- Modelled from the spec wording of the Context Assembler: the same
window as `buildContext`, but with each stored `message_text` decrypted
before being used as the entry's content. -/
def claimedContext (dec : String → Option String) (st : List Turn)
    (uid cid : Int) (new_text : String) : List CtxEntry :=
  let rows := ((st.filter (fun t => t.user_id = uid ∧ t.chat_id = cid)).reverse).take 10
  (rows.reverse.map (fun t =>
    ⟨if t.is_bot_message then "assistant" else "user", t.message_text.bind dec⟩))
    ++ [⟨"user", some new_text⟩]

/-! ### Toy instances used by the closed witnesses and counterexamples -/

/-- A toy length-preserving block involution standing in for the AES block
transformation in closed witnesses. -/
def toyBlock (b : List Nat) : List Nat := b.reverse

/-- A toy string-level encryption for closed witnesses: a recognisable
reversible tag. -/
def toyEnc (s : String) : String := "enc:" ++ s

/-- The matching toy decryption: strips the tag, fails on anything else
(so an untagged string models a corrupt ciphertext). -/
def toyDec (s : String) : Option String :=
  if s.data.take 4 = "enc:".data then some (String.mk (s.data.drop 4)) else none

/-- A concrete bot turn owned by user 2, used by the ownership witnesses. -/
def turnM1 : Turn :=
  { message_id := "m1", user_id := 2, chat_id := 7, message_text := some "enc:hi",
    is_bot_message := true, sent_at := 0, read_at := none,
    full_answer := some "enc:secret" }

/-- A concrete store with a single bot turn owned by user 2, used by the
ownership witnesses. -/
def storeOwnedBy2 : List Turn := [turnM1]

/-- A concrete store whose single bot turn carries a corrupt `full_answer`
(one `toyDec` rejects), used by the decryption-failure counterexample. -/
def storeCorrupt : List Turn :=
  [{ message_id := "m1", user_id := 1, chat_id := 7, message_text := some "garbage",
     is_bot_message := true, sent_at := 0, read_at := none,
     full_answer := some "corrupt" }]

/-- A 101-character answer, used by the truncation counterexample. -/
def longAnswer : String := String.mk (List.replicate 101 'a')

/-! ### Lemmas about the byte-level crypto model -/

theorem xorBytes_cons (a c : Nat) (as cs : List Nat) :
    xorBytes (a :: as) (c :: cs) = (a ^^^ c) :: xorBytes as cs := rfl

theorem xorBytes_length (a b : List Nat) :
    (xorBytes a b).length = min a.length b.length := by
  simp [xorBytes]

theorem xorBytes_cancel : ∀ (a b : List Nat), a.length = b.length →
    xorBytes (xorBytes a b) b = a := by
  intro a
  induction a with
  | nil => intro b _; cases b <;> rfl
  | cons x xs ih =>
    intro b h
    cases b with
    | nil => simp at h
    | cons y ys =>
      rw [xorBytes_cons, xorBytes_cons, Nat.xor_cancel_right,
        ih ys (by simpa using h)]

theorem chunks16_nil : chunks16 [] = [] := by
  rw [chunks16]
  simp

theorem chunks16_flatten : ∀ (bs : List (List Nat)), (∀ b ∈ bs, b.length = 16) →
    chunks16 bs.flatten = bs := by
  intro bs
  induction bs with
  | nil => intro _; simpa using chunks16_nil
  | cons b bs ih =>
    intro h
    have hb : b.length = 16 := h b (by simp)
    have hne : b ++ bs.flatten ≠ [] := by
      intro hcontra
      have := congrArg List.length hcontra
      simp [hb] at this
    rw [List.flatten_cons, chunks16, dif_neg hne, List.take_left' hb,
      List.drop_left' hb, ih (fun x hx => h x (by simp [hx]))]

theorem flatten_chunks16 (l : List Nat) : (chunks16 l).flatten = l := by
  rw [chunks16]
  by_cases h : l = []
  · simp [h]
  · rw [dif_neg h, List.flatten_cons, flatten_chunks16 (l.drop 16),
      List.take_append_drop]
termination_by l.length
decreasing_by
  simp only [List.length_drop]
  have : 0 < l.length := List.length_pos.mpr h
  omega

theorem chunks16_length_mem (l : List Nat) (hl : l.length % 16 = 0) :
    ∀ b ∈ chunks16 l, b.length = 16 := by
  rw [chunks16]
  by_cases h : l = []
  · simp [h]
  · rw [dif_neg h]
    intro b hb
    have hpos : 0 < l.length := List.length_pos.mpr h
    have h16 : 16 ≤ l.length := by omega
    rcases List.mem_cons.mp hb with rfl | hb'
    · rw [List.length_take]; omega
    · exact chunks16_length_mem (l.drop 16) (by rw [List.length_drop]; omega) b hb'
termination_by l.length
decreasing_by
  simp only [List.length_drop]
  have : 0 < l.length := List.length_pos.mpr h
  omega

theorem cbcEncryptBlocks_length (E : List Nat → List Nat)
    (hE : ∀ b, b.length = 16 → (E b).length = 16) :
    ∀ (bs : List (List Nat)) (prev : List Nat), prev.length = 16 →
      (∀ b ∈ bs, b.length = 16) →
      ∀ c ∈ cbcEncryptBlocks E prev bs, c.length = 16 := by
  intro bs
  induction bs with
  | nil => intro prev _ _ c hc; simp [cbcEncryptBlocks] at hc
  | cons b bs ih =>
    intro prev hprev hbs c hc
    have hb : b.length = 16 := hbs b (by simp)
    have hx : (xorBytes b prev).length = 16 := by
      rw [xorBytes_length, hb, hprev]; simp
    have hc16 : (E (xorBytes b prev)).length = 16 := hE _ hx
    rcases List.mem_cons.mp hc with rfl | hc'
    · exact hc16
    · exact ih (E (xorBytes b prev)) hc16 (fun x hx' => hbs x (by simp [hx'])) c hc'

theorem cbcDecrypt_cbcEncrypt (E D : List Nat → List Nat)
    (hE : ∀ b, b.length = 16 → (E b).length = 16)
    (hD : ∀ b, b.length = 16 → D (E b) = b) :
    ∀ (bs : List (List Nat)) (prev : List Nat), prev.length = 16 →
      (∀ b ∈ bs, b.length = 16) →
      cbcDecryptBlocks D prev (cbcEncryptBlocks E prev bs) = bs := by
  intro bs
  induction bs with
  | nil => intro prev _ _; rfl
  | cons b bs ih =>
    intro prev hprev hbs
    have hb : b.length = 16 := hbs b (by simp)
    have hx : (xorBytes b prev).length = 16 := by
      rw [xorBytes_length, hb, hprev]; simp
    have hEx : (E (xorBytes b prev)).length = 16 := hE _ hx
    show xorBytes (D (E (xorBytes b prev))) prev ::
      cbcDecryptBlocks D (E (xorBytes b prev))
        (cbcEncryptBlocks E (E (xorBytes b prev)) bs) = b :: bs
    rw [hD _ hx, xorBytes_cancel b prev (by rw [hb, hprev]),
      ih _ hEx (fun x h => hbs x (by simp [h]))]

theorem pad16_length_mod (l : List Nat) : (pad16 l).length % 16 = 0 := by
  simp only [pad16, List.length_append, List.length_replicate]
  omega

theorem unpad16_pad16 (l : List Nat) : unpad16 (pad16 l) = some l := by
  have hmod : l.length % 16 < 16 := Nat.mod_lt _ (by omega)
  have hpad : pad16 l =
      l ++ List.replicate (16 - l.length % 16) (16 - l.length % 16) := rfl
  set n := 16 - l.length % 16 with hn
  have hn1 : 1 ≤ n := by omega
  have hn16 : n ≤ 16 := by omega
  obtain ⟨m, hm⟩ : ∃ m, n = m + 1 := ⟨n - 1, by omega⟩
  have hlastD : (pad16 l).getLastD 0 = n := by
    rw [hpad, hm, List.replicate_succ', ← List.append_assoc, List.getLastD_concat]
  have hlen : (pad16 l).length = l.length + n := by
    rw [hpad]; simp
  have hdrop : (pad16 l).drop ((pad16 l).length - n) = List.replicate n n := by
    rw [hlen, hpad, Nat.add_sub_cancel, List.drop_left' rfl]
  have htake : (pad16 l).take ((pad16 l).length - n) = l := by
    rw [hlen, hpad, Nat.add_sub_cancel, List.take_left' rfl]
  unfold unpad16
  rw [hlastD, if_neg (by simp [pad16_length_mod l]),
    if_neg (by push_neg; refine ⟨hn1, hn16, ?_⟩; omega),
    if_pos (by rw [hdrop]), htake]

/-! ### Claim C8: encryption round trip -/

/-- C8: for every byte string, `decrypt_data` inverts `encrypt_data`, for
any block cipher whose block transformation is length-preserving on and
inverted by `D` over 16-byte blocks and any 16-byte IV, and the produced
bundle records exactly the fresh IV supplied to that call, so each call's
output is self-describing and decryptable with no state beyond the key
(distinct fresh IVs per call give bundles differing in their `iv` field). -/
theorem encrypt_decrypt_roundtrip (E D : List Nat → List Nat)
    (hE : ∀ b, b.length = 16 → (E b).length = 16)
    (hD : ∀ b, b.length = 16 → D (E b) = b)
    (iv : List Nat) (hiv : iv.length = 16) (data : List Nat) :
    decrypt_data D (encrypt_data E iv data) = some data ∧
    (encrypt_data E iv data).iv = iv := by
  constructor
  · show unpad16 (cbcDecryptBlocks D iv
      (chunks16 ((cbcEncryptBlocks E iv (chunks16 (pad16 data))).flatten))).flatten =
        some data
    have hblocks : ∀ b ∈ chunks16 (pad16 data), b.length = 16 :=
      chunks16_length_mem _ (pad16_length_mod data)
    have henc : ∀ c ∈ cbcEncryptBlocks E iv (chunks16 (pad16 data)), c.length = 16 :=
      cbcEncryptBlocks_length E hE _ iv hiv hblocks
    rw [chunks16_flatten _ henc,
      cbcDecrypt_cbcEncrypt E D hE hD _ iv hiv hblocks,
      flatten_chunks16, unpad16_pad16]
  · rfl

/-- Witness for C8 at a concrete toy block cipher, IV and data. -/
theorem encrypt_decrypt_roundtrip_witness :
    decrypt_data toyBlock (encrypt_data toyBlock (List.replicate 16 0) [1, 2, 3]) =
      some [1, 2, 3] ∧
    (encrypt_data toyBlock (List.replicate 16 0) [1, 2, 3]).iv = List.replicate 16 0 :=
  encrypt_decrypt_roundtrip toyBlock toyBlock
    (fun b hb => by simpa [toyBlock] using hb)
    (fun b _ => by simp [toyBlock])
    (List.replicate 16 0) (by simp) [1, 2, 3]

/-! ### Claim C1: retrieval is scoped by the owning user -/

/-- C1: when a turn with the requested `message_id` exists but is owned by a
different `user_id`, `get_full_answer` answers "Answer not found" to an
authorized requester (and "Not authorized" to an unauthorized one) — in no
case the stored content: the SELECT is scoped by both `message_id` and
`user_id`, and `message_id` is the table's primary key (the uniqueness
hypothesis). -/
theorem fetchFullAnswer_foreign_owner (dec : String → Option String) (st : List Turn)
    (uid : Int) (mid : String) (now : Nat) (authorized : Bool) (t : Turn)
    (huniq : ∀ t1 ∈ st, ∀ t2 ∈ st, t1.message_id = t2.message_id → t1 = t2)
    (ht : t ∈ st) (hmid : t.message_id = mid) (howner : t.user_id ≠ uid) :
    (get_full_answer dec st uid mid authorized now).result =
      (if authorized then FAResult.notFound else FAResult.notAuthorized) := by
  cases authorized with
  | false => rfl
  | true =>
    have hnone : st.find? (fun x => x.message_id = mid ∧ x.user_id = uid) = none := by
      rw [List.find?_eq_none]
      intro x hx
      simp only [decide_eq_true_eq]
      rintro ⟨hxm, hxu⟩
      have hxt : x = t := huniq x hx t ht (by rw [hxm, hmid])
      rw [hxt] at hxu
      exact howner hxu
    have hfetch : fetchStoredAnswer st uid mid = none := by
      unfold fetchStoredAnswer
      rw [hnone]
      rfl
    simp [get_full_answer, hfetch]

/-- Witness for C1: user 1, authorized, requests the message owned by
user 2; the outcome is "Answer not found". -/
theorem fetchFullAnswer_foreign_owner_witness :
    (get_full_answer toyDec storeOwnedBy2 1 "m1" true 5).result =
      (if true then FAResult.notFound else FAResult.notAuthorized) :=
  fetchFullAnswer_foreign_owner toyDec storeOwnedBy2 1 "m1" 5 true turnM1
    (by decide) (by decide) rfl (by decide)

/-! ### Claim C2: denial happens before any storage access -/

/-- C2: when the oracle denies, `get_full_answer` returns the explicit
"Not authorized" denial with zero payload, performs no storage read and no
decryption, and leaves the store — `read_at` included — exactly as it was. -/
theorem fetchFullAnswer_denied (dec : String → Option String) (st : List Turn)
    (uid : Int) (mid : String) (now : Nat) :
    get_full_answer dec st uid mid false now =
      ⟨FAResult.notAuthorized, st, 0, 0⟩ := rfl

/-! ### Claim C3: the truncation for unauthorized callers -/

set_option maxRecDepth 8192 in
/-- C3 counterexample: for a 101-character generated answer, the truncated
answer returned by `process_message` is not the spec's
first-100-characters-plus-"…" string — the code appends "..." instead. -/
theorem truncationMarker_cex :
    (process_message toyEnc [] 1 7 "q" longAnswer false "mid" 0).1.truncated_answer ≠
      some (claimedTruncated longAnswer) := by
  decide

/-- C3 as amended: for an unauthorized caller, `full_answer` is null and the
truncated answer is the first 100 characters of the generated answer with
the three-dot marker "..." appended when the answer is longer than 100
characters, the answer unchanged otherwise; the part before the marker is a
character-exact prefix of the answer of length at most 100. -/
theorem processTurn_unauthorized_truncates (enc : String → String) (st : List Turn)
    (uid cid : Int) (text answer : String) (mid : String) (now : Nat) :
    (process_message enc st uid cid text answer false mid now).1.full_answer = none ∧
    (process_message enc st uid cid text answer false mid now).1.truncated_answer =
      some (if MAX_TRUNCATED_LENGTH < answer.length
        then answer.take MAX_TRUNCATED_LENGTH ++ "..." else answer) ∧
    (answer.take MAX_TRUNCATED_LENGTH).data <+: answer.data ∧
    (answer.take MAX_TRUNCATED_LENGTH).length ≤ MAX_TRUNCATED_LENGTH := by
  refine ⟨rfl, ?_, ?_, ?_⟩
  · show some (truncateAnswer answer) = _
    unfold truncateAnswer
    by_cases h : MAX_TRUNCATED_LENGTH < answer.length
    · rw [if_pos h, if_pos h]
    · rw [if_neg h, if_neg h]
      have hle : answer.data.length ≤ MAX_TRUNCATED_LENGTH := by
        rw [String.length_data]
        omega
      rw [String.take_eq, List.take_of_length_le hle]
  · rw [String.data_take]
    exact List.take_prefix _ _
  · rw [← String.length_data, String.data_take, List.length_take]
    exact Nat.min_le_left _ _

/-! ### Claim C4: authorized callers get the full answer -/

/-- C4: when the oracle authorizes, `process_message` returns the freshly
generated answer as `full_answer` (non-null) and a null
`truncated_answer`. -/
theorem processTurn_authorized_full (enc : String → String) (st : List Turn)
    (uid cid : Int) (text answer : String) (mid : String) (now : Nat) :
    (process_message enc st uid cid text answer true mid now).1 =
      ⟨some answer, none, mid⟩ := rfl

/-! ### Claim C5: what the write paths persist -/

/-- C5 failing behaviour: the row inserted by `process_message` carries the
user's `message_text` verbatim — whatever the encryption function is, the
stored field equals the raw input — while `full_answer` is stored
encrypted.  The claim that every persisted text field is a ciphertext
bundle fails on this write path (the history read path of the same file
decrypts `message_text`, and `log_message` encrypts it, so the plaintext
INSERT of lines 219-222 contradicts the code's own read path). -/
theorem processTurn_stores_plaintext_text (enc : String → String) (st : List Turn)
    (uid cid : Int) (text answer : String) (authorized : Bool) (mid : String) (now : Nat) :
    ∃ t : Turn,
      (process_message enc st uid cid text answer authorized mid now).2 = st ++ [t] ∧
      t.message_text = some text ∧ t.full_answer = some (enc answer) := by
  refine ⟨{ message_id := mid, user_id := uid, chat_id := cid,
            message_text := some text, is_bot_message := false,
            sent_at := now, read_at := none, full_answer := some (enc answer) },
    ?_, rfl, rfl⟩
  cases authorized <;> rfl

/-! ### Claim C6: the user-turn invariant on `full_answer` -/

/-- C6 failing behaviour: the row inserted by `process_message` leaves
`is_bot_message` to its FALSE default while setting `full_answer`, so every
`/process` call stores a non-null `full_answer` on a user-authored turn —
the invariant that `full_answer` is never set on a turn with a false
`is_bot_flag` is violated (and the history handler of the same file shows
`full_answer` only on bot rows, so these stored answers are unreachable
there). -/
theorem processTurn_full_answer_on_user_turn (enc : String → String) (st : List Turn)
    (uid cid : Int) (text answer : String) (authorized : Bool) (mid : String) (now : Nat) :
    ∃ t : Turn,
      (process_message enc st uid cid text answer authorized mid now).2 = st ++ [t] ∧
      t.is_bot_message = false ∧ t.full_answer ≠ none := by
  refine ⟨{ message_id := mid, user_id := uid, chat_id := cid,
            message_text := some text, is_bot_message := false,
            sent_at := now, read_at := none, full_answer := some (enc answer) },
    ?_, rfl, by simp⟩
  cases authorized <;> rfl

/-! ### Claim C7: the context window -/

theorem take_reverse_reverse {α : Type _} (l : List α) (n : Nat) :
    (l.reverse.take n).reverse = l.drop (l.length - n) := by
  simpa using @List.reverse_take α l.reverse n

/-- C7 counterexample: on a store whose single prior turn holds an
encrypted `message_text`, the context built by `process_message` carries
the raw stored ciphertext, not the decrypted content the claim requires. -/
theorem contextAssembler_cex :
    buildContext storeOwnedBy2 2 7 "new" ≠ claimedContext toyDec storeOwnedBy2 2 7 "new" := by
  have h1 : buildContext storeOwnedBy2 2 7 "new" =
      [⟨"assistant", some "enc:hi"⟩, ⟨"user", some "new"⟩] := rfl
  have h2 : claimedContext toyDec storeOwnedBy2 2 7 "new" =
      [⟨"assistant", some "hi"⟩, ⟨"user", some "new"⟩] := rfl
  rw [h1, h2]
  decide

/-- C7 as amended: the context is the at most 10 most recent prior turns of
the `(user_id, chat_id)` pair in chronological order — the last at-most-10
elements of the matching rows in store order — each mapped to the
"assistant"/"user" role by `is_bot_flag` with the stored `message_text`
taken verbatim (no decryption), followed by the new message as the final
entry; at most 11 entries, and exactly one more than the window when fewer
than 10 prior turns exist (no padding). -/
theorem contextAssembler_window (st : List Turn) (uid cid : Int) (new_text : String) :
    buildContext st uid cid new_text =
      (((st.filter (fun t => t.user_id = uid ∧ t.chat_id = cid)).drop
          ((st.filter (fun t => t.user_id = uid ∧ t.chat_id = cid)).length - 10)).map
        (fun t => ⟨if t.is_bot_message then "assistant" else "user", t.message_text⟩))
        ++ [⟨"user", some new_text⟩] ∧
    (buildContext st uid cid new_text).length =
      min (st.filter (fun t => t.user_id = uid ∧ t.chat_id = cid)).length 10 + 1 ∧
    (buildContext st uid cid new_text).getLast? = some ⟨"user", some new_text⟩ := by
  refine ⟨?_, ?_, ?_⟩
  · unfold buildContext
    rw [take_reverse_reverse]
  · unfold buildContext
    simp only [List.length_append, List.length_map, List.length_reverse,
      List.length_take, List.length_cons, List.length_nil]
    rw [Nat.min_comm]
  · unfold buildContext
    exact List.getLast?_concat _

/-! ### Claim C9: decryption failures -/

theorem decryptOrPlaceholder_cases (dec : String → Option String) (s : String) :
    (∃ ct, dec ct = some (decryptOrPlaceholder dec s)) ∨
      decryptOrPlaceholder dec s = decryptPlaceholder := by
  unfold decryptOrPlaceholder
  cases hdec : dec s with
  | none => right; rfl
  | some pt => left; exact ⟨s, by rw [hdec]⟩

/-- C9 counterexample: on a store whose `full_answer` does not decrypt, an
authorized `/full_answer` request ends in the propagated decryption error —
`decrypt_data` is not wrapped in try/except there — and not in the redacted
placeholder the claim requires for every decrypting operation. -/
theorem fetchFullAnswer_decrypt_crash_cex :
    (get_full_answer toyDec storeCorrupt 1 "m1" true 3).result = FAResult.decryptError ∧
    (get_full_answer toyDec storeCorrupt 1 "m1" true 3).result ≠
      FAResult.fullAnswer decryptPlaceholder := by
  have h : (get_full_answer toyDec storeCorrupt 1 "m1" true 3).result =
      FAResult.decryptError := rfl
  refine ⟨h, ?_⟩
  rw [h]
  intro hcontra
  exact FAResult.noConfusion hcontra

/-- C9 as amended: in the history handler a decryption failure never
crashes the request — every text the items hand out is either a genuine
decryption output or the redacted placeholder — while the `/full_answer`
handler propagates the decryption failure as an error; in both handlers
the stored record is left unmodified (the `read_at` stamp happens only
after a successful decrypt). -/
theorem decryptionFailure_handling (dec : String → Option String) (st : List Turn)
    (uid : Int) (limit : Nat) (authorized : Bool) (mid : String) (now : Nat) :
    (∀ item ∈ get_dialog_history dec st uid limit authorized,
      (∀ s, item.message_text = some s →
        (∃ ct, dec ct = some s) ∨ s = decryptPlaceholder) ∧
      (∀ s, item.full_answer = some s →
        (∃ ct, dec ct = some s) ∨ s = decryptPlaceholder)) ∧
    ((get_full_answer dec st uid mid authorized now).result = FAResult.decryptError →
      (get_full_answer dec st uid mid authorized now).store = st) := by
  constructor
  · intro item hitem
    unfold get_dialog_history at hitem
    rcases List.mem_map.mp hitem with ⟨t, ht, rfl⟩
    constructor
    · intro s hs
      simp only [historyItemOf] at hs
      cases htm : t.message_text with
      | none => rw [htm] at hs; exact Option.noConfusion hs
      | some str =>
        rw [htm] at hs
        simp only [textFieldOf] at hs
        by_cases hstr : str = ""
        · rw [if_pos hstr] at hs; exact Option.noConfusion hs
        · rw [if_neg hstr] at hs
          have hval : decryptOrPlaceholder dec str = s := Option.some_inj.mp hs
          rcases decryptOrPlaceholder_cases dec str with ⟨ct, hct⟩ | hpl
          · left; exact ⟨ct, by rw [hct, hval]⟩
          · right; rw [← hval]; exact hpl
    · intro s hs
      simp only [historyItemOf] at hs
      cases htm : t.full_answer with
      | none => rw [htm] at hs; exact Option.noConfusion hs
      | some str =>
        rw [htm] at hs
        simp only [answerFieldOf] at hs
        by_cases hcond : authorized = true ∧ str ≠ "" ∧ t.is_bot_message = true
        · rw [if_pos hcond] at hs
          have hval : decryptOrPlaceholder dec str = s := Option.some_inj.mp hs
          rcases decryptOrPlaceholder_cases dec str with ⟨ct, hct⟩ | hpl
          · left; exact ⟨ct, by rw [hct, hval]⟩
          · right; rw [← hval]; exact hpl
        · rw [if_neg hcond] at hs; exact Option.noConfusion hs
  · cases authorized with
    | false => intro _; rfl
    | true =>
      cases hf : fetchStoredAnswer st uid mid with
      | none => intro _; simp [get_full_answer, hf]
      | some ct =>
        by_cases hct : ct = ""
        · intro _; simp [get_full_answer, hf, hct]
        · cases hdec : dec ct with
          | none => intro _; simp [get_full_answer, hf, hct, hdec]
          | some pt =>
            intro h
            exfalso
            have hres : (get_full_answer dec st uid mid true now).result =
                FAResult.fullAnswer pt := by
              simp [get_full_answer, hf, hct, hdec]
            rw [hres] at h
            exact FAResult.noConfusion h

/-- Witness for C9 as amended: the concrete corrupt store, where the failed
retrieval leaves the store untouched. -/
theorem decryptionFailure_handling_witness :
    (get_full_answer toyDec storeCorrupt 1 "m1" true 3).store = storeCorrupt :=
  (decryptionFailure_handling toyDec storeCorrupt 1 20 true "m1" 3).2 rfl

/-! ### Claim C10: the oracle adapter fails closed -/

/-- C10: whenever the oracle call fails — service unreachable, a non-200
status, or a 200 body without the `authorized` key — `check_authorization`
returns false, so `process_message` withholds the full answer and
`get_full_answer` returns the explicit denial. -/
theorem authFailure_fails_closed (o : Transport) (enc : String → String)
    (dec : String → Option String) (st : List Turn) (uid cid : Int)
    (text answer mid : String) (now : Nat)
    (h : oracleCallFailed o = true) :
    check_authorization (call_service o) = false ∧
    (process_message enc st uid cid text answer
      (check_authorization (call_service o)) mid now).1.full_answer = none ∧
    (get_full_answer dec st uid mid
      (check_authorization (call_service o)) now).result = FAResult.notAuthorized := by
  have hfalse : check_authorization (call_service o) = false := by
    cases o with
    | status200 auth =>
      cases auth with
      | none => rfl
      | some b => simp [oracleCallFailed] at h
    | statusOther code txt => rfl
    | failure msg => rfl
  refine ⟨hfalse, ?_, ?_⟩ <;> rw [hfalse] <;> rfl

/-- Witness for C10 at a concrete transport failure. -/
theorem authFailure_fails_closed_witness :
    check_authorization (call_service (Transport.failure "connection refused")) = false ∧
    (process_message toyEnc [] 1 7 "q" "a"
      (check_authorization (call_service (Transport.failure "connection refused")))
      "m" 0).1.full_answer = none ∧
    (get_full_answer toyDec [] 1 "m"
      (check_authorization (call_service (Transport.failure "connection refused")))
      0).result = FAResult.notAuthorized :=
  authFailure_fails_closed (Transport.failure "connection refused") toyEnc toyDec [] 1 7
    "q" "a" "m" 0 rfl
